import Mathlib

/-!
Verification of `keras_core/backend/torch/core.py` against its specification.

The Python module is shallowly embedded below: pure functions become Lean
functions, the process-wide device attribute becomes explicit state passing,
and code that raises becomes `Option`/`Except`-valued. Tensors are modelled
at the level of detail each operation needs: nested lists of integers for the
structural update operations, shape/dtype records for the shape-inference
engine, and dtype/device metadata records where only placement matters.
-/

namespace KerasTorch

/-! ## Dtype registry (`TORCH_DTYPES`, `to_torch_dtype`) -/

/-- The native dtype handles of the engine (`torch.float16`, `torch.float32`, ...). -/
inductive TorchDtype where
  | float16
  | float32
  | float64
  | uint8
  | int8
  | int16
  | int32
  | int64
  | bfloat16
  | boolT
deriving DecidableEq, Repr

/-- The canonical name of a native dtype handle (`str(torch.float32).split(".")[-1]`,
the name the framework's canonicalizer recovers from a native handle). -/
def torchDtypeName : TorchDtype → String
  | .float16 => "float16"
  | .float32 => "float32"
  | .float64 => "float64"
  | .uint8 => "uint8"
  | .int8 => "int8"
  | .int16 => "int16"
  | .int32 => "int32"
  | .int64 => "int64"
  | .bfloat16 => "bfloat16"
  | .boolT => "bool"

/-- The `TORCH_DTYPES` dict from the source, entry for entry: abstract dtype
name to native handle. `uint16` and `uint32` have no torch counterpart and are
mapped to `torch.int32` resp. `torch.int64` (the source's TODO comments). -/
def TORCH_DTYPES : List (String × TorchDtype) :=
  [("float16", .float16),
   ("float32", .float32),
   ("float64", .float64),
   ("uint8", .uint8),
   ("uint16", .int32),
   ("uint32", .int64),
   ("int8", .int8),
   ("int16", .int16),
   ("int32", .int32),
   ("int64", .int64),
   ("bfloat16", .bfloat16),
   ("bool", .boolT)]

/-- The argument of `to_torch_dtype`: a native handle, a dtype-name string, or
Python `None` (the value `dtype or getattr(x, "dtype", None)` produces when the
caller gave no dtype and `x` has no dtype attribute). -/
inductive DtypeArg where
  | native (d : TorchDtype)
  | name (s : String)
  | pyNone
deriving DecidableEq

/-- Modelled from the spec: `standardize_dtype` (from `keras_core.backend.common`,
not under src/) canonicalizes an abstract dtype name ("Abstract Dtype: a canonical
name (e.g. \x22float32\x22, \x22uint16\x22) independent of any engine"). A name string passes
through as its canonical form; when no dtype was given (Python `None`) the
framework substitutes its process-wide float default, the spec's canonical
example name "float32" (the conversion layer accepts plain scalars and nested
lists, so `None` cannot raise here). -/
def standardize_dtype : Option String → String
  | some s => s
  | none => "float32"

/-- `to_torch_dtype(dtype)`: a native handle is returned as-is; otherwise the
canonicalized name is looked up in `TORCH_DTYPES`, and a missing entry raises
`ValueError("Unsupported dtype for PyTorch: ...")`. -/
def to_torch_dtype : DtypeArg → Except String TorchDtype
  | .native d => .ok d
  | .name s =>
    match TORCH_DTYPES.lookup (standardize_dtype (some s)) with
    | some d => .ok d
    | none => .error ("Unsupported dtype for PyTorch: " ++ s)
  | .pyNone =>
    match TORCH_DTYPES.lookup (standardize_dtype none) with
    | some d => .ok d
    | none => .error ("Unsupported dtype for PyTorch: " ++ standardize_dtype none)

/-! ## Device context (`device_scope`, `get_device`)

The process-wide `"torch_device"` global attribute becomes an explicit state
value of type `Option String` threaded through the computation. A wrapped
computation (the body of the `with` block) is a state transformer that may
finish normally or raise: `Option String → Option String × Except ε α`. -/

/-- `get_device()`: the scoped override if set, else `"cuda"` when the
accelerator probe succeeds, else `"cpu"`. -/
def get_device (torch_device : Option String) (cuda_is_available : Bool) : String :=
  match torch_device with
  | some device => device
  | none => if cuda_is_available then "cuda" else "cpu"

/-- `device_scope(device)`: records the previous value of the global attribute,
installs the new one, runs the body, and — in a `finally` block, hence on the
normal path and on the raising path alike — writes the previous value back. -/
def device_scope (device : String)
    (body : Option String → Option String × Except ε α)
    (s : Option String) : Option String × Except ε α :=
  let previous_device := s
  let r := body (some device)
  (previous_device, r.2)

/-! ## `stop_gradient`

`stop_gradient(variable)` returns `variable.requires_grad_(False)`:
`requires_grad_` is torch's in-place setter of the gradient-tracking flag and
returns the receiver itself. Tensor identity is modelled by a `Nat` id and the
tracking flags of all live tensors by a state `Nat → Bool`. -/

/-- `x.requires_grad_(b)`: in-place update of `x`'s tracking flag; the returned
tensor is `x` itself, not a copy. -/
def requires_grad_inplace (flags : Nat → Bool) (x : Nat) (b : Bool) :
    (Nat → Bool) × Nat :=
  (fun i => if i = x then b else flags i, x)

/-- `stop_gradient(variable) = variable.requires_grad_(False)`. -/
def stop_gradient (flags : Nat → Bool) (x : Nat) : (Nat → Bool) × Nat :=
  requires_grad_inplace flags x false

/-! ## Dtype/device metadata flow

`convert_to_tensor` places its result on `get_device()`; `torch.zeros` inside
`scatter` is called with a dtype but *no* device argument, so the zero-filled
base tensor stays on the engine's default device. Only dtype and device are
tracked here; the element-level semantics of `scatter` is modelled further
below on nested tensors. -/

structure TensorMeta where
  dtype : TorchDtype
  device : String
deriving DecidableEq, Repr

/-- Device placement of `convert_to_tensor`: the result lives on `get_device()`
(`x.to(get_device())` on the tensor path, `device=get_device()` in
`torch.as_tensor`); the dtype is the converted value's resolved dtype. -/
def convert_to_tensor_meta (s : Option String) (cuda_is_available : Bool)
    (m : TensorMeta) : TensorMeta :=
  { dtype := m.dtype, device := get_device s cuda_is_available }

/-- `torch.zeros(shape, dtype=...)` with no `device` argument: allocated with
the requested dtype on the engine's default device. -/
def torch_zeros_meta (dtype : TorchDtype) (torch_default_device : String) :
    TensorMeta :=
  { dtype := dtype, device := torch_default_device }

/-- Metadata flow of `scatter(indices, values, shape)`: `values` is converted
(hence moved to the current device), the accumulator is
`torch.zeros(shape, dtype=values.dtype)` — created *without* a device argument —
and the in-place `+=` writes preserve the accumulator's dtype and device, which
is what the function returns. The metadata of `indices` does not influence the
result and is omitted. -/
def scatter_meta (s : Option String) (cuda_is_available : Bool)
    (torch_default_device : String) (values : TensorMeta) : TensorMeta :=
  let values' := convert_to_tensor_meta s cuda_is_available values
  torch_zeros_meta values'.dtype torch_default_device

/-! ## Dtype resolution of `convert_to_tensor`

Only the dtype computation of `convert_to_tensor(x, dtype=None)` is modelled
here; values are classified by the shape of the source's `if` cascade. -/

/-- What the engine coerces a plain Python list/scalar (no dtype attribute) to. -/
inductive HostKind where
  | ints
  | floats
  | bools
deriving DecidableEq, Repr

/-- The engine's default dtype for a host array: what
`torch.as_tensor(x)` *would* infer when given no `dtype` argument
(`torch.as_tensor([1, 2])` is int64, `torch.as_tensor([1.5])` is float32,
booleans stay bool). -/
def torch_default_dtype : HostKind → TorchDtype
  | .ints => .int64
  | .floats => .float32
  | .bools => .boolT

/-- `torch.as_tensor(x, dtype=d)`: an explicit dtype wins; only when the engine
receives no dtype does it fall back to its own inference on the host data. -/
def torch_as_tensor_dtype (host : HostKind) : Option TorchDtype → TorchDtype
  | some d => d
  | none => torch_default_dtype host

/-- The inputs `convert_to_tensor` distinguishes (the `Variable` branch simply
returns the variable's stored tensor and is omitted):
a native tensor, a numpy array carrying a dtype attribute, a list of native
tensors (stacked), or a plain list/scalar with no dtype attribute. -/
inductive TValue where
  | torchT (dtype : TorchDtype)
  | npArr (dtype : String)
  | torchTList (dtype : TorchDtype)
  | pyList (host : HostKind)
deriving DecidableEq, Repr

/-- `getattr(x, "dtype", None)` followed by the implicit classification done by
`to_torch_dtype`: tensors expose a native handle, numpy arrays a name, plain
lists nothing. (A list of tensors has no dtype attribute either.) -/
def getattr_dtype : TValue → DtypeArg
  | .torchT d => .native d
  | .npArr s => .name s
  | .torchTList _ => .pyNone
  | .pyList _ => .pyNone

/-- The dtype of the tensor produced by `convert_to_tensor(x, dtype)`, following
the source line by line: `dtype = to_torch_dtype(dtype or getattr(x, "dtype",
None))` — which always yields a concrete native handle or raises — then
`x.to(dtype)` on the tensor path when the resolved dtype differs,
`torch.stack(x)` (keeping the elements' dtype, the resolved one is unused) on
the tensor-list path, and `torch.as_tensor(x, dtype=dtype, ...)` with the
resolved dtype on the host path. -/
def convert_to_tensor_dtype (x : TValue) (dtype : Option String) :
    Except String TorchDtype :=
  let arg : DtypeArg :=
    match dtype with
    | some s => .name s
    | none => getattr_dtype x
  match to_torch_dtype arg with
  | .error e => .error e
  | .ok d =>
    match x with
    | .torchT xd => .ok (if d ≠ xd then d else xd)
    | .npArr _ => .ok d
    | .torchTList ed => .ok ed
    | .pyList host => .ok (torch_as_tensor_dtype host (some d))

/-! ## Nested tensors and the structural update operations

A native tensor is modelled as a nested list of integers: rank = nesting
depth; a rank-n torch tensor of shape `[d0, ..., d(n-1)]` corresponds to a
`dim` node with `d0` children of shape `[d1, ..., d(n-1)]`. Python basic
slicing `x[s : s + l]` along the leading axis is `(xs.drop s).take l`
(Python clamps slice bounds exactly as `drop`/`take` do). -/

inductive NTensor where
  | scalar (v : Int)
  | dim (xs : List NTensor)

/-- `wf t shape`: `t` is a rectangular tensor of the given shape. -/
def wf : NTensor → List Nat → Bool
  | .scalar _, [] => true
  | .dim xs, n :: rest => xs.length == n && xs.all fun x => wf x rest
  | _, _ => false

/-- `torch.zeros(shape)` as a nested tensor. -/
def zerosT : List Nat → NTensor
  | [] => .scalar 0
  | n :: rest => .dim (List.replicate n (zerosT rest))

/-- Elementwise in-place add `t += u` of two tensors of equal shape. The first
argument `rank` is the (known, finite) rank of the operands; on the
shape-mismatched operands the source would raise a broadcasting error, here the
left operand is returned unchanged. -/
def addT : Nat → NTensor → NTensor → NTensor
  | _, .scalar a, .scalar b => .scalar (a + b)
  | rank + 1, .dim xs, .dim us => .dim (List.zipWith (addT rank) xs us)
  | _, t, _ => t

/-- `zeros[tuple(index)] += value`: descend along the (possibly short-of-rank)
coordinate `index` and accumulate the block `value` (of rank `blockRank`) into
the addressed subtensor. An out-of-range coordinate raises `IndexError` in the
source; here the tensor is returned unchanged (the theorems' hypotheses keep
coordinates in range). -/
def addAt (blockRank : Nat) : List Nat → NTensor → NTensor → NTensor
  | [], t, value => addT blockRank t value
  | _ :: _, .scalar v, _ => .scalar v
  | i :: rest, .dim xs, value =>
    match xs[i]? with
    | some x => .dim (xs.set i (addAt blockRank rest x value))
    | none => .dim xs

/-- `scatter(indices, values, shape)`: start from `torch.zeros(shape)` and, for
each row `indices[i]` (already in the reshaped `[-1, index_length]` form, so a
row is one coordinate of `index_length` axes), execute
`zeros[tuple(indices[i])] += values[i]`, where `values[i]` is the corresponding
block of shape `shape[index_length:]` from the reshaped values. -/
def scatter (indices : List (List Nat)) (values : List NTensor)
    (shape : List Nat) : NTensor :=
  (indices.zip values).foldl
    (fun zeros iv => addAt (shape.length - iv.1.length) iv.1 zeros iv.2)
    (zerosT shape)

/-- `inputs[tuple(index)] = update`: descend along the coordinate and overwrite
the addressed subtensor with `update`. Out-of-range coordinates raise in the
source and leave the tensor unchanged here; an index deeper than the rank
raises in the source and is returned unchanged here. -/
def setAt : List Nat → NTensor → NTensor → NTensor
  | [], _, update => update
  | _ :: _, .scalar v, _ => .scalar v
  | i :: rest, .dim xs, update =>
    match xs[i]? with
    | some x => .dim (xs.set i (setAt rest x update))
    | none => .dim xs

/-- `scatter_update(inputs, indices, updates)`: the source transposes `indices`
and performs one advanced-indexing assignment
`inputs[tuple(indices)] = updates`, which writes `updates[i]` at coordinate
`indices[i]` for every row, duplicates resolved by the last write. That is the
left fold of single-coordinate overwrites in row order. -/
def scatter_update (inputs : NTensor) (indices : List (List Nat))
    (updates : List NTensor) : NTensor :=
  (indices.zip updates).foldl (fun acc iu => setAt iu.1 acc iu.2) inputs

/-- `slice(inputs, start_indices, shape)`: per-axis Python slices
`[start : start + length]`, built by `zip(start_indices, shape)` (so the two
lists are truncated to the shorter one and any remaining trailing axes are
taken whole). -/
def slice : NTensor → List Nat → List Nat → NTensor
  | t, [], _ => t
  | t, _ :: _, [] => t
  | .scalar v, _ :: _, _ :: _ => .scalar v
  | .dim xs, s :: srest, l :: lrest =>
    .dim (((xs.drop s).take l).map fun x => slice x srest lrest)

/-- `slice_update(inputs, start_indices, updates)`: per-axis Python slices
`[start : start + update_length]` built by `zip(start_indices, updates.shape)`,
then `inputs[slices] = updates`: along the leading axis the rows
`start, ..., start + updates.shape[0] - 1` are overwritten by the recursively
updated rows, everything before and after is kept. A rank mismatch between
`inputs` and `updates` raises in the source and returns `inputs` here. -/
def slice_update : NTensor → List Nat → NTensor → NTensor
  | _, [], updates => updates
  | .scalar v, _ :: _, _ => .scalar v
  | .dim xs, _ :: _, .scalar _ => .dim xs
  | .dim xs, s :: rest, .dim us =>
    .dim (xs.take s ++
      (List.zipWith (fun x u => slice_update x rest u) ((xs.drop s).take us.length) us ++
        xs.drop (s + us.length)))

/-! ## `while_loop` -/

/-- What `body(*loop_vars)` may return: a tuple/list of loop variables or a
single bare value. -/
inductive BodyResult (V : Type u) where
  | single (v : V)
  | tuple (vs : List V)

/-- The normalization the source applies to the body's result:
`if not isinstance(loop_vars, (list, tuple)): loop_vars = (loop_vars,)`
followed by `tuple(loop_vars)`. -/
def normalize_loop_vars : BodyResult V → List V
  | .single v => [v]
  | .tuple vs => vs

/-- `while_loop(cond, body, loop_vars, maximum_iterations)` with a finite
iteration cap: while `cond(*loop_vars)` holds and fewer than
`maximum_iterations` iterations have completed, replace the loop variables by
the normalized result of `body(*loop_vars)`. (The source's upward counter
`current_iter` is the cap minus the remaining fuel here.) -/
def while_loop (cond : List V → Bool) (body : List V → BodyResult V) :
    List V → (maximum_iterations : Nat) → List V
  | loop_vars, 0 => loop_vars
  | loop_vars, n + 1 =>
    if cond loop_vars then
      while_loop cond body (normalize_loop_vars (body loop_vars)) n
    else loop_vars

/-- The number of times the body runs in `while_loop` with a finite cap. -/
def while_loop_calls (cond : List V → Bool) (body : List V → BodyResult V) :
    List V → Nat → Nat
  | _, 0 => 0
  | loop_vars, n + 1 =>
    if cond loop_vars then
      while_loop_calls cond body (normalize_loop_vars (body loop_vars)) n + 1
    else 0

/-- `while_loop` with `maximum_iterations=None` iterates with no cap and so may
diverge; its behavior is embedded as a result relation: the loop terminates
with `result` iff some finite number of guarded steps reaches `result` and the
condition has become false there. -/
def while_loop_unbounded (cond : List V → Bool) (body : List V → BodyResult V)
    (loop_vars result : List V) : Prop :=
  ∃ n, while_loop cond body loop_vars n = result ∧ cond result = false

/-! ## Shape/dtype inference (`compute_output_spec`)

A symbolic `KerasTensor` has a shape whose entries may be unknown (`None`) and
an abstract dtype name; the trial tensors `torch.empty(...)` built from it have
concrete shapes and native dtypes (contents are never inspected by the model —
the trials run `fn` on shape/dtype descriptors). The user function `fn` is a
function on flattened argument lists; `nest.flatten` / `map_structure` /
`pack_sequence_as` traverse nested containers positionwise, which the list
model captures. `compute_output_spec` additionally returns the trace of
argument lists `fn` was applied to, making the number of trial executions
explicit. -/

structure KerasTensor where
  shape : List (Option Nat)
  dtype : String
deriving DecidableEq, Repr

structure TorchTensor where
  shape : List Nat
  dtype : TorchDtype
deriving DecidableEq, Repr

/-- `has_none_shape(x)`: some declared axis of the symbolic tensor is unknown. -/
def has_none_shape (x : KerasTensor) : Bool :=
  x.shape.contains none

/-- `none_in_shape = any(map(has_none_shape, nest.flatten((args, kwargs))))`. -/
def none_in_shape (args : List KerasTensor) : Bool :=
  args.any has_none_shape

/-- The shape of the trial tensor: every unknown axis is replaced by the
sentinel `fill_value` (83 in the first trial, 89 in the second). -/
def fill_shape (fill_value : Nat) (shape : List (Option Nat)) : List Nat :=
  shape.map fun e => e.getD fill_value

/-- `convert_keras_tensor_to_torch(x, fill_value)`:
`torch.empty(size=filled shape, dtype=TORCH_DTYPES[x.dtype], ...)`. The direct
dict indexing raises `KeyError` on an unsupported dtype name, hence `none`. -/
def convert_keras_tensor_to_torch (fill_value : Nat) (x : KerasTensor) :
    Option TorchTensor :=
  match TORCH_DTYPES.lookup x.dtype with
  | some d => some ⟨fill_shape fill_value x.shape, d⟩
  | none => none

/-- The whole first (resp. second) trial argument list. -/
def convert_args (fill_value : Nat) (args : List KerasTensor) :
    Option (List TorchTensor) :=
  args.mapM (convert_keras_tensor_to_torch fill_value)

/-- The axis-by-axis comparison of the two trials:
`shape = list(x1.shape)`, then for each axis `e` of `x2.shape`, if `e` differs
from `shape[i]` that axis becomes `None`. (The source indexes `shape[i]` and
raises when trial 2 has higher rank; trial ranks agree for any fixed `fn`, and
the theorems hypothesize equal ranks.) -/
def merge_shape (s1 s2 : List Nat) : List (Option Nat) :=
  List.zipWith (fun e1 e2 => if e2 ≠ e1 then none else some e1) s1 s2

/-- `compute_output_spec(fn, *args)`: run `fn` on the 83-filled trial inputs;
if no argument shape had an unknown axis, wrap each output tensor as a spec
(`KerasTensor(x.shape, standardize_dtype(x.dtype))`); otherwise run `fn` again
on the 89-filled inputs and build each output spec from the merged shape and
the dtype of the *first* trial's output. The second component is the list of
argument lists `fn` was applied to, in order. `none` models the `KeyError`
raised while building trial inputs from an unsupported dtype name. -/
def compute_output_spec (fn : List TorchTensor → List TorchTensor)
    (args : List KerasTensor) :
    Option (List KerasTensor × List (List TorchTensor)) :=
  match convert_args 83 args with
  | none => none
  | some args_1 =>
    let outputs_1 := fn args_1
    if none_in_shape args then
      match convert_args 89 args with
      | none => none
      | some args_2 =>
        let outputs_2 := fn args_2
        let flat_out := (outputs_1.zip outputs_2).map fun p =>
          KerasTensor.mk (merge_shape p.1.shape p.2.shape) (torchDtypeName p.1.dtype)
        some (flat_out, [args_1, args_2])
    else
      some (outputs_1.map (fun t => KerasTensor.mk (t.shape.map some) (torchDtypeName t.dtype)),
        [args_1])

/-- The children of a `dim` node (used to state which elements an update left
untouched). -/
def children : NTensor → List NTensor
  | .scalar _ => []
  | .dim xs => xs

/-! ## Theorems -/

/-- C4: `to_torch_dtype` is total on the supported abstract dtype names and
raises an unsupported-dtype error for any name with no mapping, never silently
defaulting; every supported name's native handle maps back to the same
canonical name, except exactly `uint16` (widened to the 32-bit signed native
dtype) and `uint32` (widened to the 64-bit signed native dtype). -/
theorem c4_to_torch_dtype_total_roundtrip :
    (∀ p ∈ TORCH_DTYPES, to_torch_dtype (.name p.1) = .ok p.2) ∧
    (∀ s, TORCH_DTYPES.lookup s = none →
      to_torch_dtype (.name s) = .error ("Unsupported dtype for PyTorch: " ++ s)) ∧
    (∀ p ∈ TORCH_DTYPES, p.1 ≠ "uint16" → p.1 ≠ "uint32" → torchDtypeName p.2 = p.1) ∧
    to_torch_dtype (.name "uint16") = .ok .int32 ∧
    to_torch_dtype (.name "uint32") = .ok .int64 := by
  refine ⟨?_, ?_, ?_, rfl, rfl⟩
  · intro p hp
    fin_cases hp <;> rfl
  · intro s h
    simp only [to_torch_dtype, standardize_dtype, h]
  · intro p hp h16 h32
    fin_cases hp <;> first
      | rfl
      | exact absurd rfl h16
      | exact absurd rfl h32

/-- C4 witness: the theorem at the concrete names `"float32"` (supported,
round-trips), `"complex64"` (unmapped, raises) and `"int8"` (round-trips). -/
theorem c4_witness :
    to_torch_dtype (.name "float32") = .ok .float32 ∧
    to_torch_dtype (.name "complex64") = .error "Unsupported dtype for PyTorch: complex64" ∧
    torchDtypeName .int8 = "int8" :=
  ⟨c4_to_torch_dtype_total_roundtrip.1 ("float32", .float32) (by decide),
   c4_to_torch_dtype_total_roundtrip.2.1 "complex64" (by decide),
   c4_to_torch_dtype_total_roundtrip.2.2.1 ("int8", .int8) (by decide)
     (by decide) (by decide)⟩

/-- C3 counterexample: the claim says that with no explicit dtype and no dtype
attribute the produced tensor gets the engine's default dtype for the coerced
host array — an integer list would then get the engine's default integer dtype
(`int64`). In the code, `to_torch_dtype(None)` always yields a concrete handle
(the framework's float default, `float32`), which is passed to the engine, so
`convert_to_tensor([1, 2, 3])` produces a `float32` tensor, not `int64`. -/
theorem c3_counterexample :
    convert_to_tensor_dtype (.pyList .ints) none = .ok .float32 ∧
    torch_as_tensor_dtype .ints none = .int64 ∧
    TorchDtype.float32 ≠ TorchDtype.int64 :=
  ⟨rfl, rfl, by decide⟩

/-- C3 (amended): the target dtype of `convert_to_tensor` is resolved as:
the explicit dtype argument if given; otherwise `x`'s own dtype attribute if
`x` has one; otherwise the framework's fixed default obtained by canonicalizing
the missing dtype (`float32`) — the engine's inferred default for the coerced
host array is never consulted, because `to_torch_dtype` always hands the engine
a concrete dtype. (On the list-of-tensors path the stacked elements keep their
own dtype and the resolved dtype is unused.) -/
theorem c3_amended_dtype_resolution (x : TValue) (dtype : Option String)
    (d : TorchDtype) (h : convert_to_tensor_dtype x dtype = .ok d) :
    (∀ ed, x = .torchTList ed → d = ed) ∧
    (∀ s, dtype = some s → (∀ ed, x ≠ .torchTList ed) →
      to_torch_dtype (.name s) = .ok d) ∧
    (dtype = none → ∀ xd, x = .torchT xd → d = xd) ∧
    (dtype = none → ∀ s, x = .npArr s → to_torch_dtype (.name s) = .ok d) ∧
    (dtype = none → ∀ host, x = .pyList host → d = .float32) := by
  refine ⟨?_, ?_, ?_, ?_, ?_⟩
  · rintro ed rfl
    cases dtype <;>
      · simp only [convert_to_tensor_dtype, getattr_dtype] at h
        revert h
        cases hdt : to_torch_dtype _ <;> simp_all
  · rintro s rfl hne
    simp only [convert_to_tensor_dtype] at h
    revert h
    cases hdt : to_torch_dtype (.name s) with
    | error e => simp
    | ok d0 =>
      cases x with
      | torchT xd =>
        by_cases hxd : d0 = xd <;>
          simp_all [torch_as_tensor_dtype]
      | npArr s0 => simp_all
      | torchTList ed => exact absurd rfl (hne ed)
      | pyList host => simp_all [torch_as_tensor_dtype]
  · rintro rfl xd rfl
    simp only [convert_to_tensor_dtype, getattr_dtype, to_torch_dtype] at h
    by_cases hxd : xd = xd <;> simp_all
  · rintro rfl s rfl
    simp only [convert_to_tensor_dtype, getattr_dtype] at h
    revert h
    cases hdt : to_torch_dtype (.name s) <;> simp_all
  · rintro rfl host rfl
    simp only [convert_to_tensor_dtype, getattr_dtype, to_torch_dtype,
      standardize_dtype, TORCH_DTYPES, List.lookup, torch_as_tensor_dtype] at h
    revert h
    simp_all

/-- C3 witness: the amended theorem at `x = np.array` of dtype `"int16"` with
no explicit dtype (the attribute tier) — the produced dtype is `int16`. -/
theorem c3_amended_witness : to_torch_dtype (.name "int16") = .ok .int16 :=
  (c3_amended_dtype_resolution (.npArr "int16") none .int16 rfl).2.2.2.1
    rfl "int16" rfl

/-- C2: `device_scope(d)` restores the previously active device on every exit
path — the final state equals the state before entry whether the body returned
normally or raised, `get_device` reports the same device as before, the body's
outcome (value or exception) is propagated, and a nested scope restores its own
previous device (`some device`), i.e. restoration is LIFO. -/
theorem c2_device_scope_restores (ε α : Type) (device : String)
    (body : Option String → Option String × Except ε α)
    (s : Option String) (cuda_is_available : Bool) :
    (device_scope device body s).1 = s ∧
    get_device (device_scope device body s).1 cuda_is_available
      = get_device s cuda_is_available ∧
    (device_scope device body s).2 = (body (some device)).2 ∧
    (∀ (inner : Option String → Option String × Except ε α) (d2 : String),
      (device_scope d2 inner (some device)).1 = some device) :=
  ⟨rfl, rfl, rfl, fun _ _ => rfl⟩

/-- C9: `stop_gradient(x)` returns the very same tensor object with its
gradient-tracking flag disabled in place — after the call the original `x` no
longer has gradient tracking either, and no other tensor's flag changes. -/
theorem c9_stop_gradient (flags : Nat → Bool) (x : Nat) :
    (stop_gradient flags x).2 = x ∧
    (stop_gradient flags x).1 x = false ∧
    (∀ y, y ≠ x → (stop_gradient flags x).1 y = flags y) := by
  refine ⟨rfl, ?_, fun y hy => ?_⟩
  · simp [stop_gradient, requires_grad_inplace]
  · simp [stop_gradient, requires_grad_inplace, hy]

/-- C9 witness: on a state where every tensor is tracked, stopping gradient on
tensor 0 returns tensor 0 untracked and leaves tensor 1 tracked. -/
theorem c9_witness :
    (stop_gradient (fun _ => true) 0).2 = 0 ∧
    (stop_gradient (fun _ => true) 0).1 0 = false ∧
    (stop_gradient (fun _ => true) 0).1 1 = true :=
  ⟨(c9_stop_gradient (fun _ => true) 0).1,
   (c9_stop_gradient (fun _ => true) 0).2.1,
   (c9_stop_gradient (fun _ => true) 0).2.2 1 (by decide)⟩

/-- C10: the tensor `scatter` returns has the dtype of the converted `values`
argument, and it lives on the engine's default device (the zero-filled base is
created without a device argument), not on the currently scoped device — in
contrast to `convert_to_tensor`, which places results on `get_device()`; in
particular with `"cuda"` scoped and `"cpu"` the engine default, the result is
on `"cpu"`. -/
theorem c10_scatter_default_device (s : Option String) (cuda_is_available : Bool)
    (torch_default_device : String) (values : TensorMeta) :
    (scatter_meta s cuda_is_available torch_default_device values).dtype
      = (convert_to_tensor_meta s cuda_is_available values).dtype ∧
    (scatter_meta s cuda_is_available torch_default_device values).device
      = torch_default_device ∧
    (convert_to_tensor_meta s cuda_is_available values).device
      = get_device s cuda_is_available ∧
    (scatter_meta (some "cuda") false "cpu" values).device = "cpu" ∧
    get_device (some "cuda") false = "cuda" :=
  ⟨rfl, rfl, rfl, rfl, rfl⟩

/-- Two successive in-place accumulations of scalars merge into one
accumulation of the sum (at any rank fuel; mismatched operands are absorbed
unchanged on both sides). -/
theorem addT_scalar_assoc (n : Nat) (t : NTensor) (a b : Int) :
    addT n (addT n t (.scalar a)) (.scalar b) = addT n t (.scalar (a + b)) := by
  cases t <;> cases n <;> simp [addT, Int.add_assoc]

/-- Two successive `zeros[tuple(index)] += v` writes at the same coordinate
accumulate into a single write of the sum. -/
theorem addAt_addAt_scalar (c : List Nat) :
    ∀ (n : Nat) (t : NTensor) (a b : Int),
      addAt n c (addAt n c t (.scalar a)) (.scalar b)
        = addAt n c t (.scalar (a + b)) := by
  induction c with
  | nil => exact fun n t a b => addT_scalar_assoc n t a b
  | cons i rest ih =>
    intro n t a b
    cases t with
    | scalar v => rfl
    | dim xs =>
      cases h : xs[i]? with
      | none => simp [addAt, h]
      | some x =>
        have hi : i < xs.length := by
          by_contra hc
          push_neg at hc
          rw [List.getElem?_eq_none hc] at h
          exact Option.noConfusion h
        have h1 : addAt n (i :: rest) (.dim xs) (.scalar a)
            = .dim (xs.set i (addAt n rest x (.scalar a))) := by
          simp [addAt, h]
        have h2 : (xs.set i (addAt n rest x (.scalar a)))[i]?
            = some (addAt n rest x (.scalar a)) := List.getElem?_set_self hi
        rw [h1]
        have h3 : addAt n (i :: rest) (.dim (xs.set i (addAt n rest x (.scalar a)))) (.scalar b)
            = .dim ((xs.set i (addAt n rest x (.scalar a))).set i
                (addAt n rest (addAt n rest x (.scalar a)) (.scalar b))) := by
          simp [addAt, h2]
        rw [h3, List.set_set, ih]
        simp [addAt, h]

/-- Two successive overwrites at the same coordinate: the last write wins. -/
theorem setAt_setAt (c : List Nat) :
    ∀ (t u v : NTensor), setAt c (setAt c t u) v = setAt c t v := by
  induction c with
  | nil => exact fun _ _ _ => rfl
  | cons i rest ih =>
    intro t u v
    cases t with
    | scalar w => rfl
    | dim xs =>
      cases h : xs[i]? with
      | none => simp [setAt, h]
      | some x =>
        have hi : i < xs.length := by
          by_contra hc
          push_neg at hc
          rw [List.getElem?_eq_none hc] at h
          exact Option.noConfusion h
        have h1 : setAt (i :: rest) (.dim xs) u = .dim (xs.set i (setAt rest x u)) := by
          simp [setAt, h]
        have h2 : (xs.set i (setAt rest x u))[i]? = some (setAt rest x u) :=
          List.getElem?_set_self hi
        rw [h1]
        have h3 : setAt (i :: rest) (.dim (xs.set i (setAt rest x u))) v
            = .dim ((xs.set i (setAt rest x u)).set i (setAt rest (setAt rest x u) v)) := by
          simp [setAt, h2]
        rw [h3, List.set_set, ih]
        simp [setAt, h]

/-- C5: `scatter` starts from a zero-filled tensor and accumulates each row of
values at its coordinate, so duplicate coordinates sum their contributions
rather than overwriting: the spec's example `scatter([[0],[0]], [3,4],
shape=[1]) == [7]` holds, and in general two rows with the same coordinate
are equivalent to one row carrying the sum. -/
theorem c5_scatter_accumulates :
    scatter [[0], [0]] [.scalar 3, .scalar 4] [1] = .dim [.scalar 7] ∧
    (∀ (shape index : List Nat) (a b : Int),
      scatter [index, index] [.scalar a, .scalar b] shape
        = scatter [index] [.scalar (a + b)] shape) := by
  refine ⟨rfl, fun shape index a b => ?_⟩
  simp only [scatter, List.zip_cons_cons, List.zip_nil_right, List.foldl_cons,
    List.foldl_nil]
  exact addAt_addAt_scalar index (shape.length - index.length) (zerosT shape) a b

/-- C6: `scatter_update` writes each update row at its coordinate with
overwrite semantics — the spec's example `scatter_update([0,0,0], [[1]], [9])
== [0,9,0]` holds, duplicate coordinates resolve to the last write, and every
element outside the written coordinate is left unchanged. -/
theorem c6_scatter_update_overwrites :
    scatter_update (.dim [.scalar 0, .scalar 0, .scalar 0]) [[1]] [.scalar 9]
      = .dim [.scalar 0, .scalar 9, .scalar 0] ∧
    (∀ (t : NTensor) (c : List Nat) (u v : NTensor),
      scatter_update t [c, c] [u, v] = scatter_update t [c] [v]) ∧
    (∀ (xs : List NTensor) (i : Nat) (rest : List Nat) (u : NTensor) (j : Nat),
      j ≠ i → (children (setAt (i :: rest) (.dim xs) u))[j]? = xs[j]?) := by
  refine ⟨rfl, fun t c u v => ?_, fun xs i rest u j hj => ?_⟩
  · simp only [scatter_update, List.zip_cons_cons, List.zip_nil_right,
      List.foldl_cons, List.foldl_nil]
    exact setAt_setAt c t u v
  · cases h : xs[i]? with
    | none => simp [setAt, h, children]
    | some x =>
      have h1 : setAt (i :: rest) (.dim xs) u = .dim (xs.set i (setAt rest x u)) := by
        simp [setAt, h]
      rw [h1]
      simpa [children] using List.getElem?_set_ne (Ne.symm hj)

/-- C6 witness: writing 9 at coordinate 1 of `[0,0,0]` leaves the element at
coordinate 0 unchanged (the untouched-elements part at a concrete input), on
top of the theorem's closed example conjunct. -/
theorem c6_witness :
    (children (setAt [1] (.dim [.scalar 0, .scalar 0, .scalar 0]) (.scalar 9)))[0]?
      = some (.scalar 0) := by
  rw [c6_scatter_update_overwrites.2.2 [.scalar 0, .scalar 0, .scalar 0] 1 [] (.scalar 9) 0
    (by decide)]
  rfl

/-- Mapping `g` over `zipWith f` recovers the right-hand list when `g` inverts
`f` pointwise and the right list is at most as long as the left. -/
theorem map_zipWith_eq_self (f : NTensor → NTensor → NTensor)
    (g : NTensor → NTensor) :
    ∀ (as us : List NTensor), us.length ≤ as.length →
      (∀ p ∈ as.zip us, g (f p.1 p.2) = p.2) →
      (List.zipWith f as us).map g = us := by
  intro as
  induction as with
  | nil =>
    intro us hlen _
    have : us = [] := List.length_eq_zero.mp (Nat.le_zero.mp hlen)
    subst this
    rfl
  | cons a as ih =>
    intro us hlen hp
    cases us with
    | nil => rfl
    | cons u us' =>
      simp only [List.zipWith_cons_cons, List.map_cons]
      rw [hp (a, u) (by simp [List.zip_cons_cons]),
        ih us' (by simpa using hlen)
          (fun p hp' => hp p (by simp [List.zip_cons_cons, hp']))]

/-- The slice/slice-update round trip: overwriting the hyper-rectangular block
at `starts` with a well-formed `updates` of shape `σ` inside a well-formed
tensor of shape `τ`, then slicing at the same `starts` with per-axis lengths
`σ`, recovers exactly `updates`. -/
theorem slice_slice_update_round (starts : List Nat) :
    ∀ (σ τ : List Nat) (t u : NTensor),
      wf t τ = true → wf u σ = true →
      starts.length = σ.length → σ.length = τ.length →
      (∀ k, k < σ.length → starts.getD k 0 + σ.getD k 0 ≤ τ.getD k 0) →
      slice (slice_update t starts u) starts σ = u := by
  induction starts with
  | nil =>
    intro σ τ t u _ _ hl1 _ _
    have hσ : σ = [] := List.length_eq_zero.mp hl1.symm
    subst hσ
    cases t <;> cases u <;> rfl
  | cons s st ih =>
    intro σ τ t u hwt hwu hl1 hl2 hfit
    cases σ with
    | nil => exact absurd hl1 (by simp)
    | cons l σ2 =>
      cases τ with
      | nil => exact absurd hl2 (by simp)
      | cons m τ2 =>
        cases u with
        | scalar v => simp [wf] at hwu
        | dim us =>
          cases t with
          | scalar v => simp [wf] at hwt
          | dim xs =>
            have hus : us.length = l ∧ ∀ x ∈ us, wf x σ2 = true := by
              simpa [wf, List.all_eq_true] using hwu
            have hxs : xs.length = m ∧ ∀ x ∈ xs, wf x τ2 = true := by
              simpa [wf, List.all_eq_true] using hwt
            have hfit0 : s + l ≤ m := by
              have := hfit 0 (by simp)
              simpa using this
            have hsm : s ≤ xs.length := by omega
            have htake_len : (xs.take s).length = s := by
              rw [List.length_take]
              exact Nat.min_eq_left hsm
            have hinner_len : ((xs.drop s).take us.length).length = us.length := by
              rw [List.length_take, List.length_drop]
              exact Nat.min_eq_left (by omega)
            have hB_len :
                (List.zipWith (fun x u => slice_update x st u)
                  ((xs.drop s).take us.length) us).length = us.length := by
              rw [List.length_zipWith, hinner_len]
              exact Nat.min_self us.length
            have hdrop : (xs.take s ++
                (List.zipWith (fun x u => slice_update x st u)
                  ((xs.drop s).take us.length) us ++ xs.drop (s + us.length))).drop s
                = List.zipWith (fun x u => slice_update x st u)
                    ((xs.drop s).take us.length) us ++ xs.drop (s + us.length) := by
              have hd := List.drop_left (xs.take s)
                (List.zipWith (fun x u => slice_update x st u)
                  ((xs.drop s).take us.length) us ++ xs.drop (s + us.length))
              rwa [htake_len] at hd
            have htake : (List.zipWith (fun x u => slice_update x st u)
                  ((xs.drop s).take us.length) us ++ xs.drop (s + us.length)).take us.length
                = List.zipWith (fun x u => slice_update x st u)
                    ((xs.drop s).take us.length) us := by
              have ht := List.take_left
                (List.zipWith (fun x u => slice_update x st u)
                  ((xs.drop s).take us.length) us) (xs.drop (s + us.length))
              rwa [hB_len] at ht
            have hmap : (List.zipWith (fun x u => slice_update x st u)
                  ((xs.drop s).take us.length) us).map (fun x => slice x st σ2)
                = us := by
              apply map_zipWith_eq_self _ _ ((xs.drop s).take us.length) us
                (le_of_eq hinner_len.symm)
              intro p hpz
              obtain ⟨hp1, hp2⟩ := List.of_mem_zip hpz
              apply ih σ2 τ2 p.1 p.2
              · exact hxs.2 p.1 (List.mem_of_mem_drop (List.mem_of_mem_take hp1))
              · exact hus.2 p.2 hp2
              · simpa using hl1
              · simpa using hl2
              · intro k hk
                have := hfit (k + 1) (by simpa using Nat.succ_lt_succ hk)
                simpa using this
            show slice (.dim (xs.take s ++
                (List.zipWith (fun x u => slice_update x st u)
                  ((xs.drop s).take us.length) us ++ xs.drop (s + us.length))))
              (s :: st) (l :: σ2) = .dim us
            simp only [slice]
            rw [hdrop, ← hus.1, htake, hmap]

/-- C8: slicing after `slice_update` round-trips — for every tensor `t`, start
offsets, and well-formed updates block fitting inside `t`, slicing
`slice_update(t, starts, updates)` at the same starts with lengths equal to
`updates`'s shape returns exactly `updates`; in particular
`slice(slice_update(t, [0], [5,5]), [0], [2]) == [5,5]` for every 1-D tensor
`t` of length at least 2. -/
theorem c8_slice_after_slice_update :
    (∀ (starts σ τ : List Nat) (t u : NTensor),
      wf t τ = true → wf u σ = true →
      starts.length = σ.length → σ.length = τ.length →
      (∀ k, k < σ.length → starts.getD k 0 + σ.getD k 0 ≤ τ.getD k 0) →
      slice (slice_update t starts u) starts σ = u) ∧
    (∀ xs : List NTensor, (∀ x ∈ xs, wf x [] = true) → 2 ≤ xs.length →
      slice (slice_update (.dim xs) [0] (.dim [.scalar 5, .scalar 5])) [0] [2]
        = .dim [.scalar 5, .scalar 5]) := by
  constructor
  · exact fun starts σ τ t u hwt hwu hl1 hl2 hfit =>
      slice_slice_update_round starts σ τ t u hwt hwu hl1 hl2 hfit
  · intro xs hxs hlen
    apply slice_slice_update_round [0] [2] [xs.length] (.dim xs)
      (.dim [.scalar 5, .scalar 5])
    · simp only [wf, beq_self_eq_true, Bool.true_and, List.all_eq_true]
      exact hxs
    · rfl
    · rfl
    · rfl
    · intro k hk
      have hk1 : k < 1 := by simpa using hk
      have hk0 : k = 0 := by omega
      subst hk0
      simpa using hlen

/-- C8 witness: the round trip at the concrete 1-D tensor `[1, 2, 3]` with
updates `[5, 5]` at offset 0. -/
theorem c8_witness :
    slice (slice_update (.dim [.scalar 1, .scalar 2, .scalar 3]) [0]
      (.dim [.scalar 5, .scalar 5])) [0] [2] = .dim [.scalar 5, .scalar 5] :=
  c8_slice_after_slice_update.2 [.scalar 1, .scalar 2, .scalar 3]
    (by intro x hx; fin_cases hx <;> rfl) (by decide)

/-- Once the condition is false, the bounded loop returns its input for any
remaining fuel. -/
theorem while_loop_stable (cond : List V → Bool) (body : List V → BodyResult V)
    (vars : List V) (h : cond vars = false) :
    ∀ m, while_loop cond body vars m = vars := by
  intro m
  cases m with
  | zero => rfl
  | succ m => simp [while_loop, h]

/-- Splitting the fuel of the bounded loop: running `a + b` iterations is
running `a`, then `b` more from where that left off. -/
theorem while_loop_add (cond : List V → Bool) (body : List V → BodyResult V) :
    ∀ (a b : Nat) (vars : List V),
      while_loop cond body vars (a + b)
        = while_loop cond body (while_loop cond body vars a) b := by
  intro a
  induction a with
  | zero =>
    intro b vars
    rw [Nat.zero_add]
    rfl
  | succ a ih =>
    intro b vars
    by_cases h : cond vars
    · have hab : a + 1 + b = (a + b) + 1 := by omega
      rw [hab]
      simp only [while_loop, h, if_true]
      exact ih b (normalize_loop_vars (body vars))
    · simp only [Bool.not_eq_true] at h
      simp only [while_loop_stable cond body vars h]

/-- C7: `while_loop` iterates the (tuple-normalized) body while the condition
holds and the iteration count is below the cap: with a finite
`maximum_iterations` the body runs at most that many times; a false condition
exits immediately; with `maximum_iterations=None` the result the loop
terminates with is unique; and on the spec's examples,
`while_loop(lambda i: i<5, lambda i: (i+1,), (0,))` terminates with `(5,)`
while the same loop capped at 2 iterations returns `(2,)`. -/
theorem c7_while_loop :
    (∀ (V : Type) (cond : List V → Bool) (body : List V → BodyResult V)
        (vars : List V) (m : Nat), while_loop_calls cond body vars m ≤ m) ∧
    (∀ (V : Type) (cond : List V → Bool) (body : List V → BodyResult V)
        (vars : List V) (m : Nat), cond vars = false →
      while_loop cond body vars m = vars) ∧
    (∀ (V : Type) (cond : List V → Bool) (body : List V → BodyResult V)
        (vars r r' : List V), while_loop_unbounded cond body vars r →
      while_loop_unbounded cond body vars r' → r = r') ∧
    while_loop_unbounded (V := Int) (fun vs => decide (vs.headD 0 < 5))
      (fun vs => .tuple [vs.headD 0 + 1]) [0] [5] ∧
    while_loop (V := Int) (fun vs => decide (vs.headD 0 < 5))
      (fun vs => .tuple [vs.headD 0 + 1]) [0] 2 = [2] := by
  refine ⟨?_, ?_, ?_, ⟨5, by decide, by decide⟩, by decide⟩
  · intro V cond body vars m
    induction m generalizing vars with
    | zero => exact Nat.le_refl 0
    | succ m ih =>
      by_cases h : cond vars
      · simp only [while_loop_calls, h, if_true]
        exact Nat.succ_le_succ (ih _)
      · simp only [Bool.not_eq_true] at h
        simp [while_loop_calls, h]
  · exact fun V cond body vars m h => while_loop_stable cond body vars h m
  · rintro V cond body vars r r' ⟨n, hn, hr⟩ ⟨n', hn', hr'⟩
    rcases Nat.le_total n n' with hle | hle
    · have hsplit := while_loop_add cond body n (n' - n) vars
      rw [Nat.add_sub_cancel' hle] at hsplit
      rw [← hn', hsplit, hn, while_loop_stable cond body r hr]
    · have hsplit := while_loop_add cond body n' (n - n') vars
      rw [Nat.add_sub_cancel' hle] at hsplit
      rw [← hn, hsplit, hn', while_loop_stable cond body r' hr']

/-- C7 witness: a loop whose condition is false at entry exits immediately
(the immediate-exit part at a concrete input), and the unbounded example's
result is unique at `[5]`. -/
theorem c7_witness :
    while_loop (V := Int) (fun _ => false) (fun vs => .tuple vs) [7] 3 = [7] ∧
    ([5] : List Int) = [5] :=
  ⟨c7_while_loop.2.1 Int (fun _ => false) (fun vs => .tuple vs) [7] 3 rfl,
   c7_while_loop.2.2.1 Int (fun vs => decide (vs.headD 0 < 5))
     (fun vs => .tuple [vs.headD 0 + 1]) [0] [5] [5]
     ⟨5, by decide, by decide⟩ ⟨5, by decide, by decide⟩⟩

/-- When every argument's dtype is in `TORCH_DTYPES`, building the trial
inputs succeeds and pairs every symbolic tensor with its converted placeholder. -/
theorem convert_args_some (fill : Nat) :
    ∀ args : List KerasTensor,
      (∀ x ∈ args, (TORCH_DTYPES.lookup x.dtype).isSome) →
      ∃ ts, convert_args fill args = some ts ∧
        List.Forall₂ (fun x t => convert_keras_tensor_to_torch fill x = some t)
          args ts := by
  intro args
  induction args with
  | nil => exact fun _ => ⟨[], rfl, List.Forall₂.nil⟩
  | cons a as ih =>
    intro h
    obtain ⟨ts, hts, hf⟩ := ih fun x hx => h x (List.mem_cons_of_mem a hx)
    obtain ⟨d, hd⟩ :=
      Option.isSome_iff_exists.mp (h a (List.mem_cons_self a as))
    have hconv : convert_keras_tensor_to_torch fill a
        = some ⟨fill_shape fill a.shape, d⟩ := by
      simp [convert_keras_tensor_to_torch, hd]
    refine ⟨⟨fill_shape fill a.shape, d⟩ :: ts, ?_, List.Forall₂.cons hconv hf⟩
    simp only [convert_args] at hts ⊢
    rw [List.mapM_cons, hconv, hts]
    rfl

/-- A successful placeholder conversion yields the sentinel-filled shape and
the table entry of the declared dtype. -/
theorem convert_keras_tensor_to_torch_spec (fill : Nat) (x : KerasTensor)
    (t : TorchTensor) (h : convert_keras_tensor_to_torch fill x = some t) :
    t.shape = fill_shape fill x.shape ∧
      TORCH_DTYPES.lookup x.dtype = some t.dtype := by
  revert h
  unfold convert_keras_tensor_to_torch
  cases hl : TORCH_DTYPES.lookup x.dtype with
  | none => simp
  | some d =>
    intro h
    simp only [Option.some.injEq] at h
    subst h
    exact ⟨rfl, rfl⟩

/-- Positionwise reading of `merge_shape`: an axis is `none` exactly when the
two trial sizes disagree, and is the agreed size otherwise. -/
theorem merge_shape_getElem (s1 : List Nat) :
    ∀ (s2 : List Nat) (i e1 e2 : Nat), s1[i]? = some e1 → s2[i]? = some e2 →
      (merge_shape s1 s2)[i]? = some (if e2 = e1 then some e1 else none) := by
  induction s1 with
  | nil =>
    intro s2 i e1 e2 h1 _
    simp at h1
  | cons a s1 ih =>
    intro s2 i e1 e2 h1 h2
    cases s2 with
    | nil => simp at h2
    | cons b s2 =>
      cases i with
      | zero =>
        simp only [List.getElem?_cons_zero, Option.some.injEq] at h1 h2
        subst h1
        subst h2
        simp [merge_shape]
      | succ i =>
        simp only [List.getElem?_cons_succ] at h1 h2
        simpa [merge_shape] using ih s2 i e1 e2 h1 h2

/-- Positionwise reading of `fill_shape`: known axes are kept, unknown axes
become the sentinel. -/
theorem fill_shape_getElem (fill : Nat) (sh : List (Option Nat)) (i : Nat) :
    (fill_shape fill sh)[i]? = sh[i]?.map fun e => e.getD fill := by
  simp [fill_shape]

/-- C1: when no argument shape has an unknown axis, `compute_output_spec` runs
`fn` exactly once — on placeholders with the declared (83-filled, hence
unchanged) shapes and the table image of the declared dtypes — and wraps every
output tensor's concrete shape and dtype as the final spec; when some argument
shape has an unknown axis, `fn` runs exactly twice, with unknown axes filled by
83 and then 89, and each output position gets the dtype of the first run and a
shape whose axes are unknown exactly where the two runs disagree and the agreed
concrete size elsewhere; output positions are preserved. -/
theorem c1_compute_output_spec (fn : List TorchTensor → List TorchTensor)
    (args : List KerasTensor)
    (hdt : ∀ x ∈ args, (TORCH_DTYPES.lookup x.dtype).isSome) :
    ∃ args_1 args_2 specs trace,
      convert_args 83 args = some args_1 ∧
      convert_args 89 args = some args_2 ∧
      List.Forall₂ (fun x t => t.shape = fill_shape 83 x.shape ∧
        TORCH_DTYPES.lookup x.dtype = some t.dtype) args args_1 ∧
      List.Forall₂ (fun x t => t.shape = fill_shape 89 x.shape ∧
        TORCH_DTYPES.lookup x.dtype = some t.dtype) args args_2 ∧
      compute_output_spec fn args = some (specs, trace) ∧
      (none_in_shape args = false →
        trace = [args_1] ∧
        specs = (fn args_1).map fun t =>
          KerasTensor.mk (t.shape.map some) (torchDtypeName t.dtype)) ∧
      (none_in_shape args = true →
        trace = [args_1, args_2] ∧
        ∀ (p : Nat) (t1 t2 : TorchTensor),
          (fn args_1)[p]? = some t1 → (fn args_2)[p]? = some t2 →
          specs[p]? = some (KerasTensor.mk (merge_shape t1.shape t2.shape)
            (torchDtypeName t1.dtype))) ∧
      (∀ (s1 s2 : List Nat) (i e1 e2 : Nat),
        s1[i]? = some e1 → s2[i]? = some e2 →
        (merge_shape s1 s2)[i]? = some (if e2 = e1 then some e1 else none)) ∧
      (∀ (fill : Nat) (sh : List (Option Nat)) (i : Nat),
        (fill_shape fill sh)[i]? = sh[i]?.map fun e => e.getD fill) := by
  obtain ⟨a1, h1, hf1⟩ := convert_args_some 83 args hdt
  obtain ⟨a2, h2, hf2⟩ := convert_args_some 89 args hdt
  have hp1 := hf1.imp fun x t h => convert_keras_tensor_to_torch_spec 83 x t h
  have hp2 := hf2.imp fun x t h => convert_keras_tensor_to_torch_spec 89 x t h
  cases hni : none_in_shape args with
  | false =>
    refine ⟨a1, a2,
      (fn a1).map (fun t => KerasTensor.mk (t.shape.map some) (torchDtypeName t.dtype)),
      [a1], h1, h2, hp1, hp2, ?_, fun _ => ⟨rfl, rfl⟩,
      fun hc => absurd hc (by decide),
      fun s1 s2 i e1 e2 => merge_shape_getElem s1 s2 i e1 e2,
      fun fill sh i => fill_shape_getElem fill sh i⟩
    simp only [compute_output_spec, h1, h2, hni, Bool.false_eq_true, if_false]
  | true =>
    refine ⟨a1, a2,
      ((fn a1).zip (fn a2)).map (fun p =>
        KerasTensor.mk (merge_shape p.1.shape p.2.shape) (torchDtypeName p.1.dtype)),
      [a1, a2], h1, h2, hp1, hp2, ?_,
      fun hc => absurd hc (by decide),
      fun _ => ⟨rfl, ?_⟩,
      fun s1 s2 i e1 e2 => merge_shape_getElem s1 s2 i e1 e2,
      fun fill sh i => fill_shape_getElem fill sh i⟩
    · simp only [compute_output_spec, h1, h2, hni, if_true]
    · intro p t1 t2 ht1 ht2
      have hz : ((fn a1).zip (fn a2))[p]? = some (t1, t2) :=
        List.getElem?_zip_eq_some.mpr ⟨ht1, ht2⟩
      simp [List.getElem?_map, hz]

/-- C1 witness: the theorem at `fn = id` and one symbolic argument of shape
`[2, None]` and dtype `"float32"` — the two trials see shapes `[2, 83]` and
`[2, 89]`, and the resulting spec is `[2, None]` again. -/
theorem c1_witness :
    ∃ specs trace,
      compute_output_spec (fun ts => ts) [⟨[some 2, none], "float32"⟩]
        = some (specs, trace) ∧
      trace.length = 2 ∧
      specs = [⟨[some 2, none], "float32"⟩] := by
  obtain ⟨a1, a2, specs, trace, h1, h2, hf1, hf2, hspec, hfalse, htrue, hmerge, hfill⟩ :=
    c1_compute_output_spec (fun ts => ts) [⟨[some 2, none], "float32"⟩] (by decide)
  have hconc : compute_output_spec (fun ts => ts) [⟨[some 2, none], "float32"⟩]
      = some ([⟨[some 2, none], "float32"⟩],
          [[⟨[2, 83], TorchDtype.float32⟩], [⟨[2, 89], TorchDtype.float32⟩]]) := rfl
  have hp : (specs, trace)
      = ([⟨[some 2, none], "float32"⟩],
          [[⟨[2, 83], TorchDtype.float32⟩], [⟨[2, 89], TorchDtype.float32⟩]]) :=
    Option.some.inj (hspec.symm.trans hconc)
  obtain ⟨hs, ht⟩ : specs = [⟨[some 2, none], "float32"⟩] ∧
      trace = [[⟨[2, 83], TorchDtype.float32⟩], [⟨[2, 89], TorchDtype.float32⟩]] :=
    ⟨congrArg Prod.fst hp, congrArg Prod.snd hp⟩
  refine ⟨specs, trace, hspec, ?_, hs⟩
  rw [ht]
  rfl

end KerasTorch
